import Mathlib

/-
Verification development for the Hokie Event Sphere recommendation engine.

The embedding below translates the recommendation service (src/test-recomm.py)
and the relevant parts of the categorizer service (src/main_new-1.py) into
executable Lean definitions.  Python dicts with a fixed set of accessed keys
become structures whose fields are `Option`-valued exactly where the source
uses `dict.get` with a default; `numpy` float vectors become `List ℚ` with
explicit index reads (`List.getD`) and writes (`List.set`), which is faithful
because every index written by the source is guarded by a membership test and
hence in bounds.
-/

namespace HokieEvents

/-- In-place read-modify-write `vector[i] += x` on a list, as performed by the
numpy indexed assignments in `create_user_vector` (src/test-recomm.py). -/
def addAt (v : List ℚ) (i : Nat) (x : ℚ) : List ℚ :=
  v.set i (v.getD i 0 + x)

/-- The nine top-level category labels (src/test-recomm.py lines 27-29). -/
def categories : List String :=
  ["Technology", "Sports", "Music", "Art", "Travel", "Gaming", "Fitness",
   "Social Events", "Others"]

/-- The twenty-four subcategory labels (src/test-recomm.py lines 30-40). -/
def subcategories : List String :=
  ["Software & Web Development", "Data Science & Machine Learning",
   "Cybersecurity & Privacy", "Tech Innovation & Startups",
   "Team Sports", "Outdoor & Adventure Sports", "Individual Sports",
   "Live Performances & Concerts", "Music Festivals",
   "Performing Arts", "Art Exhibitions & Workshops",
   "Adventure Travel & Expeditions", "Cultural & Heritage Tours",
   "Weekend Getaways & Road Trips",
   "eSports & Competitive Gaming", "Board Games & Tabletop Meetups",
   "Virtual Reality & Tech Gaming",
   "Yoga & Mindfulness", "Outdoor Fitness",
   "Networking & Professional Meetups",
   "Community Volunteering & Social Causes", "Social Gatherings & Parties",
   "Book Clubs & Interest-Based Groups",
   "Sub-Others"]

/-- The shared feature space: `feature_space = categories + subcategories`
(src/test-recomm.py line 42). -/
def feature_space : List String := categories ++ subcategories

/-- A user profile document.  `interests` models `.get("interests", [])`;
`emailAddresses` and `id` are accessed directly by `recommend_events`. -/
structure UserProfile where
  id : String := ""
  emailAddresses : String := ""
  interests : Option (List String) := none
deriving Repr, DecidableEq

/-- One element of the `subCategories` array of a click-count document.
`category` and `categoryCount` model `.get("category", "")` and
`.get("categoryCount", 0)` (src/test-recomm.py lines 97-98). -/
structure SubCategoryInfo where
  category : Option String := none
  categoryCount : Option ℚ := none
deriving Repr, DecidableEq

/-- A click-count document.  `create_user_vector` reads only
`.get("subCategories", [])`; the other fields appear in the default document
built at src/test-recomm.py line 54. -/
structure ClickCounts where
  userId : String := ""
  category : String := ""
  categoryCount : ℚ := 0
  subCategories : Option (List SubCategoryInfo) := none
deriving Repr, DecidableEq

/-- An event document as read by the recommendation service.  The geo fields
appear twice because the source uses two different dict keys: the
capitalised keys `Latitude` and `Longitude` read by `create_event_vector`
(src/test-recomm.py lines 130-131), and the lowercase keys `latitude` and
`longitude` written by `process_ticketmaster_event` (src/main_new-1.py lines
278-279).  A Python dict distinguishes these keys, so the structure keeps
both. -/
structure Event where
  title : String := ""
  main_category : Option String := none
  sub_category : Option String := none
  latitude : Option ℚ := none
  longitude : Option ℚ := none
  Latitude : Option ℚ := none
  Longitude : Option ℚ := none
  rsvps : List String := []
deriving Repr, DecidableEq

/-- The interest-encoding loop of `create_user_vector`
(src/test-recomm.py lines 90-93). -/
def encodeInterests (fs : List String) (interests : List String)
    (v : List ℚ) : List ℚ :=
  interests.foldl
    (fun v interest =>
      if interest ∈ fs then v.set (fs.indexOf interest) 1 else v) v

/-- The clickthrough-encoding loop of `create_user_vector`
(src/test-recomm.py lines 96-100). -/
def encodeClicks (fs : List String) (subCats : List SubCategoryInfo)
    (v : List ℚ) : List ℚ :=
  subCats.foldl
    (fun v info =>
      let subcategory := info.category.getD ""
      let count := info.categoryCount.getD 0
      if subcategory ∈ fs then addAt v (fs.indexOf subcategory) count else v) v

/-- The RSVP-encoding loop of `create_user_vector`
(src/test-recomm.py lines 103-109). -/
def encodeRsvps (fs : List String) (rsvps : List Event)
    (v : List ℚ) : List ℚ :=
  rsvps.foldl
    (fun v rsvp_event =>
      let main_category := rsvp_event.main_category.getD ""
      let sub_category := rsvp_event.sub_category.getD ""
      let v := if main_category ∈ fs then addAt v (fs.indexOf main_category) 2 else v
      if sub_category ∈ fs then addAt v (fs.indexOf sub_category) 2 else v) v

/-- `create_user_vector` (src/test-recomm.py lines 86-114): zero vector over
the feature space, interests set to 1, click counts added, RSVP categories
each add 2, then two zero placeholder location dimensions are appended. -/
def create_user_vector (user_profile : UserProfile)
    (click_counts : ClickCounts) (rsvp_counts : List Event)
    (fs : List String) : List ℚ :=
  let vector := List.replicate fs.length 0
  let vector := encodeInterests fs (user_profile.interests.getD []) vector
  let vector := encodeClicks fs (click_counts.subCategories.getD []) vector
  let vector := encodeRsvps fs rsvp_counts vector
  vector ++ [0, 0]

/-- `create_event_vector` (src/test-recomm.py lines 116-134): one-hot flags
for `main_category` and `sub_category`, then the values of the dict keys
`Latitude` and `Longitude` (default 0) appended as the trailing two
dimensions. -/
def create_event_vector (event : Event) (fs : List String) : List ℚ :=
  let vector := List.replicate fs.length 0
  let main_category := event.main_category.getD ""
  let sub_category := event.sub_category.getD ""
  let vector :=
    if main_category ∈ fs then vector.set (fs.indexOf main_category) 1 else vector
  let vector :=
    if sub_category ∈ fs then vector.set (fs.indexOf sub_category) 1 else vector
  let latitude := event.Latitude.getD 0
  let longitude := event.Longitude.getD 0
  vector ++ [latitude, longitude]

/-- Input to the fallback categorizer: the `event_data` dict fields it reads
(`title` and `venue` are accessed directly, `description` via `.get`). -/
structure EventData where
  title : String := ""
  venue : String := ""
  description : Option String := none
deriving Repr, DecidableEq

/-- Output of the categorizer: the three keys of the returned dict. -/
structure CategorizeResult where
  main_category : String := ""
  sub_category : String := ""
  description : String := ""
deriving Repr, DecidableEq

/-- Whether the character list begins with `pat`. -/
def startsWithChars : List Char → List Char → Bool
  | _, [] => true
  | [], _ :: _ => false
  | a :: as, b :: bs => a == b && startsWithChars as bs

/-- Whether `pat` occurs as a contiguous run inside the character list. -/
def hasSubChars : List Char → List Char → Bool
  | [], pat => pat.isEmpty
  | a :: as, pat => startsWithChars (a :: as) pat || hasSubChars as pat

/-- Python substring membership `pat in s`. -/
def strContains (s pat : String) : Bool :=
  hasSubChars s.toList pat.toList

/-- Python `str.lower()`: character-wise lowercasing, written as a
structural map over the character data so the kernel can evaluate it. -/
def strToLower (s : String) : String :=
  ⟨s.data.map Char.toLower⟩

/-- The ordered keyword table of `infer_category_from_title`
(src/main_new-1.py lines 186-196).  Python dicts iterate in insertion
order, so the list order is the rule order. -/
def category_keywords : List (String × List String) :=
  [("Technology", ["software", "web", "development", "machine learning",
                   "cybersecurity", "tech", "startup"]),
   ("Sports", ["game", "sports", "basketball", "football", "baseball",
               "hockey", "match", "tournament", "team", "adventure"]),
   ("Music", ["concert", "music", "show", "performance", "band", "singer",
              "live"]),
   ("Art", ["festival", "art", "exhibition", "museum", "performing",
            "workshop"]),
   ("Travel", ["tour", "expedition", "travel", "heritage", "getaway"]),
   ("Gaming", ["esports", "gaming", "virtual reality", "board games"]),
   ("Fitness", ["yoga", "fitness", "mindfulness", "outdoor"]),
   ("Social Events", ["party", "gathering", "meetup", "social", "networking",
                      "celebration", "volunteer", "club"]),
   ("Others", ["miscellaneous", "other"])]

/-- The category-to-subcategory table of `infer_category_from_title`
(src/main_new-1.py lines 199-209). -/
def subcategory_mappings : List (String × String) :=
  [("Technology", "Tech Innovation & Startups"),
   ("Sports", "Team Sports"),
   ("Music", "Live Performances & Concerts"),
   ("Art", "Art Exhibitions & Workshops"),
   ("Travel", "Adventure Travel & Expeditions"),
   ("Gaming", "eSports & Competitive Gaming"),
   ("Fitness", "Yoga & Mindfulness"),
   ("Social Events", "Networking & Professional Meetups"),
   ("Others", "Sub-Others")]

/-- Lookup `subcategory_mappings[category]`. -/
def lookupSubcategory (cat : String) : String :=
  ((subcategory_mappings.find? (fun p => p.1 == cat)).map Prod.snd).getD ""

/-- The lowercased `combined_text` of `infer_category_from_title`
(src/main_new-1.py lines 181-183). -/
def combined_text (event_data : EventData) : String :=
  strToLower event_data.title ++ " " ++
    strToLower (event_data.description.getD "")

/-- The description fallback `event_data.get(...) or f"Join us for ..."`
(src/main_new-1.py lines 217 and 224); an empty string is falsy in Python
and also triggers the fallback. -/
def descriptionOrDefault (event_data : EventData) : String :=
  let fallback := "Join us for " ++ event_data.title ++ " at " ++
    event_data.venue ++ "!"
  match event_data.description with
  | some d => if d = "" then fallback else d
  | none => fallback

/-- `infer_category_from_title` (src/main_new-1.py lines 179-225): scan the
keyword groups in table order and return the first category one of whose
keywords occurs in the combined lowercased text, with its mapped
subcategory; return Others / Sub-Others when no group matches. -/
def infer_category_from_title (event_data : EventData) : CategorizeResult :=
  let text := combined_text event_data
  match category_keywords.find?
      (fun ck => ck.2.any (fun keyword => strContains text keyword)) with
  | some ck =>
    { main_category := ck.1
      sub_category := lookupSubcategory ck.1
      description := descriptionOrDefault event_data }
  | none =>
    { main_category := "Others"
      sub_category := "Sub-Others"
      description := descriptionOrDefault event_data }

/-- The `location` sub-dict of a Ticketmaster venue. -/
structure TMLocation where
  latitude : Option ℚ := none
  longitude : Option ℚ := none
deriving Repr, DecidableEq

/-- A Ticketmaster venue dict (only the keys the source reads). -/
structure TMVenue where
  name : Option String := none
  location : Option TMLocation := none
deriving Repr, DecidableEq

/-- A raw Ticketmaster event (only the keys consumed by the fields of
`Event` that the recommendation engine reads). -/
structure TMEvent where
  name : Option String := none
  tmid : Option String := none
  venues : List TMVenue := []
  description : Option String := none
deriving Repr, DecidableEq

/-- Embeds `process_ticketmaster_event` (src/main_new-1.py lines 265-323)
restricted to the stored fields that the recommendation engine later reads.
Date, image, fee and identifier handling touch none of those fields.  The
categorization result merged by `event_data.update(enhanced_data)` comes
from `categorize_with_gpt`, an external LLM call (with
`infer_category_from_title` as its deterministic fallback), so it is passed
as the parameter `enhanced`; it carries only the keys `main_category`,
`sub_category` and `description`.  The geo values are stored under the
lowercase dict keys `latitude` and `longitude` (lines 278-279); the
capitalised keys `Latitude` and `Longitude` are never written. -/
def process_ticketmaster_event (event : TMEvent)
    (enhanced : CategorizeResult) : Event :=
  let venue := event.venues.getD 0 {}
  let location := venue.location.getD {}
  { title := event.name.getD ""
    main_category := some enhanced.main_category
    sub_category := some enhanced.sub_category
    latitude := location.latitude
    longitude := location.longitude
    Latitude := none
    Longitude := none
    rsvps := [] }

/-- A Python exception value.  The only exception the modelled request body
raises itself is `HTTPException(status_code, detail)`. -/
inductive PyExc where
  | http (status : Nat) (detail : String)
deriving Repr, DecidableEq

/-- Python `str(e)` for a FastAPI `HTTPException`, whose `__str__` renders
as `f"{status_code}: {detail}"`. -/
def strOfExc : PyExc → String
  | .http status detail => toString status ++ ": " ++ detail

/-- One element of the `recommended_events` response array. -/
structure RecItem where
  event : String
  distance : ℚ
deriving Repr, DecidableEq

/-- The observable outcome of a request: a JSON body, or an HTTP error
raised via `HTTPException`. -/
inductive RecResponse where
  | ok (recommended_events : List RecItem)
  | httpError (status : Nat) (detail : String)
deriving Repr, DecidableEq

/-- The database state visible to `recommend_events`: the three collections
it reads. -/
structure DB where
  userprofiles : List UserProfile := []
  clickcounts : List ClickCounts := []
  events : List Event := []

/-- Modelled from the spec: the ANN index contract of section 4.3.  The
index itself is the external Annoy library (absent from src/), so the model
realises the contract exactly: annotate each vector with its insertion id
and its distance to the query, order by non-decreasing distance, return the
first k.  The angular metric is a real-valued function of the two vectors;
it is abstracted as the parameter `dist`, and every property proved below
holds for an arbitrary metric. -/
def annQuery (items : List (List ℚ)) (q : List ℚ) (k : Nat)
    (dist : List ℚ → List ℚ → ℚ) : List (Nat × ℚ) :=
  let annotated := items.enum.map (fun p => (p.1, dist q p.2))
  (annotated.mergeSort (fun a b => decide (a.2 ≤ b.2))).take k

/-- The default click-count document built when no record exists
(src/test-recomm.py line 54). -/
def defaultClickCounts : ClickCounts :=
  { userId := "", category := "", categoryCount := 0,
    subCategories := some [] }

/-- The body of the `try:` block of `recommend_events`
(src/test-recomm.py lines 47-82).  Raising `HTTPException(404)` at line 50
is modelled as an exceptional exit of the block. -/
def recommend_events_try (db : DB) (user_id : String) (top_n : Nat)
    (dist : List ℚ → List ℚ → ℚ) : Except PyExc (List RecItem) :=
  match db.userprofiles.find? (fun p => p.id == user_id) with
  | none => .error (.http 404 "User not found")
  | some user_profile =>
    let click_counts :=
      (db.clickcounts.find?
        (fun c => c.userId == user_profile.emailAddresses)).getD
        defaultClickCounts
    let rsvp_counts :=
      db.events.filter (fun e => user_profile.emailAddresses ∈ e.rsvps)
    let user_vector :=
      create_user_vector user_profile click_counts rsvp_counts feature_space
    let events := db.events
    let event_vectors := events.map (fun e => create_event_vector e feature_space)
    let results := annQuery event_vectors user_vector top_n dist
    .ok (results.map (fun r => { event := (events.getD r.1 {}).title
                                 distance := r.2 }))

/-- `recommend_events` (src/test-recomm.py lines 44-84).  FastAPI
`HTTPException` is a subclass of `Exception`, so the handler
`except Exception as e: raise HTTPException(status_code=500, detail=str(e))`
at lines 83-84 catches every exceptional exit of the `try:` block —
including the `HTTPException(404)` raised at line 50 — and re-raises it as
a 500 whose detail is `str(e)`. -/
def recommend_events (db : DB) (user_id : String) (top_n : Nat)
    (dist : List ℚ → List ℚ → ℚ) : RecResponse :=
  match recommend_events_try db user_id top_n dist with
  | .ok body => .ok body
  | .error e => .httpError 500 (strOfExc e)

/-! ### Specification-side functions used to state the properties -/

/-- Some interest in the list selects dimension `j` of the feature space. -/
def interestHit (fs interests : List String) (j : Nat) : Prop :=
  ∃ x ∈ interests, x ∈ fs ∧ fs.indexOf x = j

instance (fs interests : List String) (j : Nat) :
    Decidable (interestHit fs interests j) := by
  unfold interestHit
  infer_instance

/-- Contribution of one click-count entry to dimension `j`. -/
def clickContrib (fs : List String) (info : SubCategoryInfo) (j : Nat) : ℚ :=
  if info.category.getD "" ∈ fs ∧ fs.indexOf (info.category.getD "") = j then
    info.categoryCount.getD 0
  else 0

/-- Total click-count contribution to dimension `j`. -/
def clickSum (fs : List String) (subCats : List SubCategoryInfo) (j : Nat) : ℚ :=
  (subCats.map (fun info => clickContrib fs info j)).sum

/-- Contribution of one RSVP event to dimension `j`. -/
def rsvpContrib (fs : List String) (e : Event) (j : Nat) : ℚ :=
  (if e.main_category.getD "" ∈ fs ∧ fs.indexOf (e.main_category.getD "") = j
   then 2 else 0)
  + (if e.sub_category.getD "" ∈ fs ∧ fs.indexOf (e.sub_category.getD "") = j
     then 2 else 0)

/-- Total RSVP contribution to dimension `j`. -/
def rsvpSum (fs : List String) (rsvps : List Event) (j : Nat) : ℚ :=
  (rsvps.map (fun e => rsvpContrib fs e j)).sum

/-- How many RSVP contributions carry the label `x` (main and sub category
occurrences counted separately). -/
def rsvpLabelCount (rsvps : List Event) (x : String) : Nat :=
  (rsvps.map (fun e =>
    (if e.main_category.getD "" = x then 1 else 0)
    + (if e.sub_category.getD "" = x then 1 else 0))).sum

/-! ### Pointwise lemmas about list writes -/

theorem length_addAt (v : List ℚ) (i : Nat) (x : ℚ) :
    (addAt v i x).length = v.length := by
  simp [addAt]

theorem getD_addAt_self (v : List ℚ) (i : Nat) (x : ℚ) (h : i < v.length) :
    (addAt v i x).getD i 0 = v.getD i 0 + x := by
  simp [addAt, List.getD_eq_getElem?_getD, List.getElem?_set, h]

theorem getD_addAt_ne (v : List ℚ) (i j : Nat) (x : ℚ) (h : i ≠ j) :
    (addAt v i x).getD j 0 = v.getD j 0 := by
  simp [addAt, List.getD_eq_getElem?_getD, List.getElem?_set, h]

theorem getD_set_self (v : List ℚ) (i : Nat) (x : ℚ) (h : i < v.length) :
    (v.set i x).getD i 0 = x := by
  simp [List.getD_eq_getElem?_getD, List.getElem?_set, h]

theorem getD_set_ne (v : List ℚ) (i j : Nat) (x : ℚ) (h : i ≠ j) :
    (v.set i x).getD j 0 = v.getD j 0 := by
  simp [List.getD_eq_getElem?_getD, List.getElem?_set, h]

theorem length_condAddAt (fs : List String) (s : String) (v : List ℚ) (x : ℚ) :
    (if s ∈ fs then addAt v (fs.indexOf s) x else v).length = v.length := by
  split <;> simp [length_addAt]

theorem getD_condAddAt (fs : List String) (s : String) (v : List ℚ) (x : ℚ)
    (j : Nat) (hv : v.length = fs.length) :
    (if s ∈ fs then addAt v (fs.indexOf s) x else v).getD j 0
      = v.getD j 0 + (if s ∈ fs ∧ fs.indexOf s = j then x else 0) := by
  by_cases hmem : s ∈ fs
  · by_cases hidx : fs.indexOf s = j
    · rw [if_pos hmem, if_pos ⟨hmem, hidx⟩, ← hidx, getD_addAt_self]
      rw [hv]
      exact List.indexOf_lt_length.mpr hmem
    · rw [if_pos hmem, getD_addAt_ne _ _ _ _ hidx,
        if_neg (fun hc => hidx hc.2), add_zero]
  · rw [if_neg hmem, if_neg (fun hc => hmem hc.1), add_zero]

theorem length_condSet (fs : List String) (s : String) (v : List ℚ) (x : ℚ) :
    (if s ∈ fs then v.set (fs.indexOf s) x else v).length = v.length := by
  split <;> simp

theorem getD_condSet (fs : List String) (s : String) (v : List ℚ) (x : ℚ)
    (j : Nat) (hv : v.length = fs.length) :
    (if s ∈ fs then v.set (fs.indexOf s) x else v).getD j 0
      = if s ∈ fs ∧ fs.indexOf s = j then x else v.getD j 0 := by
  by_cases hmem : s ∈ fs
  · by_cases hidx : fs.indexOf s = j
    · rw [if_pos hmem, if_pos ⟨hmem, hidx⟩, ← hidx, getD_set_self]
      rw [hv]
      exact List.indexOf_lt_length.mpr hmem
    · rw [if_pos hmem, getD_set_ne _ _ _ _ hidx, if_neg (fun hc => hidx hc.2)]
  · rw [if_neg hmem, if_neg (fun hc => hmem hc.1)]

theorem getD_replicate_zero (n j : Nat) :
    (List.replicate n (0 : ℚ)).getD j 0 = 0 := by
  simp [List.getD_eq_getElem?_getD, List.getElem?_replicate]
  split <;> rfl

theorem getD_pair_zero (k : Nat) : ([0, 0] : List ℚ).getD k 0 = 0 := by
  match k with
  | 0 => rfl
  | 1 => rfl
  | n + 2 => rfl

/-! ### Stage characterizations of the user-vector encoder -/

theorem encodeInterests_cons (fs : List String) (x : String) (l : List String)
    (v : List ℚ) :
    encodeInterests fs (x :: l) v
      = encodeInterests fs l (if x ∈ fs then v.set (fs.indexOf x) 1 else v) :=
  rfl

theorem encodeClicks_cons (fs : List String) (info : SubCategoryInfo)
    (l : List SubCategoryInfo) (v : List ℚ) :
    encodeClicks fs (info :: l) v
      = encodeClicks fs l
          (if info.category.getD "" ∈ fs then
            addAt v (fs.indexOf (info.category.getD "")) (info.categoryCount.getD 0)
          else v) :=
  rfl

theorem encodeRsvps_cons (fs : List String) (e : Event) (l : List Event)
    (v : List ℚ) :
    encodeRsvps fs (e :: l) v
      = encodeRsvps fs l
          (if e.sub_category.getD "" ∈ fs then
            addAt
              (if e.main_category.getD "" ∈ fs then
                addAt v (fs.indexOf (e.main_category.getD "")) 2
              else v)
              (fs.indexOf (e.sub_category.getD "")) 2
          else
            (if e.main_category.getD "" ∈ fs then
              addAt v (fs.indexOf (e.main_category.getD "")) 2
            else v)) :=
  rfl

theorem length_encodeInterests (fs : List String) (l : List String)
    (v : List ℚ) : (encodeInterests fs l v).length = v.length := by
  induction l generalizing v with
  | nil => rfl
  | cons x l ih => rw [encodeInterests_cons, ih, length_condSet]

theorem length_encodeClicks (fs : List String) (l : List SubCategoryInfo)
    (v : List ℚ) : (encodeClicks fs l v).length = v.length := by
  induction l generalizing v with
  | nil => rfl
  | cons info l ih => rw [encodeClicks_cons, ih, length_condAddAt]

theorem length_encodeRsvps (fs : List String) (l : List Event)
    (v : List ℚ) : (encodeRsvps fs l v).length = v.length := by
  induction l generalizing v with
  | nil => rfl
  | cons e l ih =>
    rw [encodeRsvps_cons, ih, length_condAddAt, length_condAddAt]

theorem interestHit_cons {fs : List String} {x : String} {l : List String}
    {j : Nat} :
    interestHit fs (x :: l) j
      ↔ (x ∈ fs ∧ fs.indexOf x = j) ∨ interestHit fs l j := by
  simp [interestHit, List.exists_mem_cons_iff]

theorem getD_encodeInterests (fs : List String) (l : List String) (v : List ℚ)
    (j : Nat) (hv : v.length = fs.length) :
    (encodeInterests fs l v).getD j 0
      = if interestHit fs l j then 1 else v.getD j 0 := by
  induction l generalizing v with
  | nil => simp [encodeInterests, interestHit]
  | cons x l ih =>
    rw [encodeInterests_cons, ih _ (by rw [length_condSet]; exact hv),
      getD_condSet fs x v 1 j hv]
    by_cases hl : interestHit fs l j
    · rw [if_pos hl, if_pos (interestHit_cons.mpr (Or.inr hl))]
    · rw [if_neg hl]
      by_cases hx : x ∈ fs ∧ fs.indexOf x = j
      · rw [if_pos hx, if_pos (interestHit_cons.mpr (Or.inl hx))]
      · rw [if_neg hx,
          if_neg (fun hc => (interestHit_cons.mp hc).elim hx hl)]

theorem getD_encodeClicks (fs : List String) (l : List SubCategoryInfo)
    (v : List ℚ) (j : Nat) (hv : v.length = fs.length) :
    (encodeClicks fs l v).getD j 0 = v.getD j 0 + clickSum fs l j := by
  induction l generalizing v with
  | nil => simp [encodeClicks, clickSum]
  | cons info l ih =>
    rw [encodeClicks_cons, ih _ (by rw [length_condAddAt]; exact hv),
      getD_condAddAt fs _ v _ j hv]
    simp only [clickSum, clickContrib, List.map_cons, List.sum_cons]
    ring

theorem getD_encodeRsvps (fs : List String) (l : List Event) (v : List ℚ)
    (j : Nat) (hv : v.length = fs.length) :
    (encodeRsvps fs l v).getD j 0 = v.getD j 0 + rsvpSum fs l j := by
  induction l generalizing v with
  | nil => simp [encodeRsvps, rsvpSum]
  | cons e l ih =>
    have hv1 : (if e.main_category.getD "" ∈ fs then
        addAt v (fs.indexOf (e.main_category.getD "")) 2 else v).length
        = fs.length := by
      rw [length_condAddAt]; exact hv
    rw [encodeRsvps_cons,
      ih _ (by rw [length_condAddAt]; exact hv1),
      getD_condAddAt fs _ _ _ j hv1,
      getD_condAddAt fs _ v _ j hv]
    simp only [rsvpSum, rsvpContrib, List.map_cons, List.sum_cons]
    ring

/-! ### Master pointwise characterization of the two encoders -/

theorem create_user_vector_eq (p : UserProfile) (c : ClickCounts)
    (r : List Event) (fs : List String) :
    create_user_vector p c r fs
      = encodeRsvps fs r
          (encodeClicks fs (c.subCategories.getD [])
            (encodeInterests fs (p.interests.getD [])
              (List.replicate fs.length 0))) ++ [0, 0] :=
  rfl

theorem length_create_user_vector (p : UserProfile) (c : ClickCounts)
    (r : List Event) (fs : List String) :
    (create_user_vector p c r fs).length = fs.length + 2 := by
  rw [create_user_vector_eq, List.length_append, length_encodeRsvps,
    length_encodeClicks, length_encodeInterests, List.length_replicate]
  rfl

theorem getD_create_user_vector (p : UserProfile) (c : ClickCounts)
    (r : List Event) (fs : List String) (j : Nat) (hj : j < fs.length) :
    (create_user_vector p c r fs).getD j 0
      = (if interestHit fs (p.interests.getD []) j then 1 else 0)
        + clickSum fs (c.subCategories.getD []) j + rsvpSum fs r j := by
  have hlen : (encodeRsvps fs r
      (encodeClicks fs (c.subCategories.getD [])
        (encodeInterests fs (p.interests.getD [])
          (List.replicate fs.length 0)))).length = fs.length := by
    rw [length_encodeRsvps, length_encodeClicks, length_encodeInterests,
      List.length_replicate]
  rw [create_user_vector_eq, List.getD_append _ _ _ _ (by rw [hlen]; exact hj),
    getD_encodeRsvps _ _ _ _ (by
      rw [length_encodeClicks, length_encodeInterests, List.length_replicate]),
    getD_encodeClicks _ _ _ _ (by
      rw [length_encodeInterests, List.length_replicate]),
    getD_encodeInterests _ _ _ _ (by rw [List.length_replicate]),
    getD_replicate_zero]

theorem getD_create_user_vector_ge (p : UserProfile) (c : ClickCounts)
    (r : List Event) (fs : List String) (j : Nat) (hj : fs.length ≤ j) :
    (create_user_vector p c r fs).getD j 0 = 0 := by
  have hlen : (encodeRsvps fs r
      (encodeClicks fs (c.subCategories.getD [])
        (encodeInterests fs (p.interests.getD [])
          (List.replicate fs.length 0)))).length = fs.length := by
    rw [length_encodeRsvps, length_encodeClicks, length_encodeInterests,
      List.length_replicate]
  rw [create_user_vector_eq,
    List.getD_append_right _ _ _ _ (by rw [hlen]; exact hj), getD_pair_zero]

theorem create_event_vector_eq (e : Event) (fs : List String) :
    create_event_vector e fs
      = (if e.sub_category.getD "" ∈ fs then
          (if e.main_category.getD "" ∈ fs then
            (List.replicate fs.length 0).set
              (fs.indexOf (e.main_category.getD "")) 1
          else List.replicate fs.length 0).set
            (fs.indexOf (e.sub_category.getD "")) 1
        else
          (if e.main_category.getD "" ∈ fs then
            (List.replicate fs.length 0).set
              (fs.indexOf (e.main_category.getD "")) 1
          else List.replicate fs.length 0))
        ++ [e.Latitude.getD 0, e.Longitude.getD 0] :=
  rfl

theorem length_create_event_vector (e : Event) (fs : List String) :
    (create_event_vector e fs).length = fs.length + 2 := by
  rw [create_event_vector_eq, List.length_append]
  have h1 : ((if e.main_category.getD "" ∈ fs then
      (List.replicate fs.length 0).set
        (fs.indexOf (e.main_category.getD "")) 1
    else List.replicate fs.length (0 : ℚ))).length = fs.length := by
    split <;> simp
  split
  · rw [List.length_set, h1]; rfl
  · rw [h1]; rfl

theorem getD_append_pair (w : List ℚ) (a b : ℚ) :
    (w ++ [a, b]).getD w.length 0 = a
      ∧ (w ++ [a, b]).getD (w.length + 1) 0 = b := by
  constructor
  · rw [List.getD_append_right _ _ _ _ (le_refl _), Nat.sub_self]
    rfl
  · rw [List.getD_append_right _ _ _ _ (Nat.le_succ _)]
    have h : w.length + 1 - w.length = 1 := by omega
    rw [h]
    rfl

theorem create_event_vector_split (e : Event) (fs : List String) :
    ∃ w : List ℚ, w.length = fs.length ∧
      create_event_vector e fs
        = w ++ [e.Latitude.getD 0, e.Longitude.getD 0] := by
  refine ⟨_, ?_, create_event_vector_eq e fs⟩
  split <;> split <;> simp

theorem create_event_vector_trailing (e : Event) (fs : List String) :
    (create_event_vector e fs).getD fs.length 0 = e.Latitude.getD 0
      ∧ (create_event_vector e fs).getD (fs.length + 1) 0
          = e.Longitude.getD 0 := by
  obtain ⟨w, hw, hsplit⟩ := create_event_vector_split e fs
  rw [hsplit, ← hw]
  exact getD_append_pair w _ _

theorem create_event_vector_no_labels (e : Event) (fs : List String)
    (hm : e.main_category.getD "" ∉ fs) (hs : e.sub_category.getD "" ∉ fs) :
    create_event_vector e fs
      = List.replicate fs.length 0
        ++ [e.Latitude.getD 0, e.Longitude.getD 0] := by
  rw [create_event_vector_eq, if_neg hs, if_neg hm]

/-! ### Sum decomposition lemmas -/

theorem clickSum_append (fs : List String) (l₁ l₂ : List SubCategoryInfo)
    (j : Nat) :
    clickSum fs (l₁ ++ l₂) j = clickSum fs l₁ j + clickSum fs l₂ j := by
  simp [clickSum]

theorem clickSum_cons (fs : List String) (info : SubCategoryInfo)
    (l : List SubCategoryInfo) (j : Nat) :
    clickSum fs (info :: l) j = clickContrib fs info j + clickSum fs l j := by
  simp [clickSum]

theorem rsvpSum_append (fs : List String) (l₁ l₂ : List Event) (j : Nat) :
    rsvpSum fs (l₁ ++ l₂) j = rsvpSum fs l₁ j + rsvpSum fs l₂ j := by
  simp [rsvpSum]

theorem rsvpSum_cons (fs : List String) (e : Event) (l : List Event)
    (j : Nat) :
    rsvpSum fs (e :: l) j = rsvpContrib fs e j + rsvpSum fs l j := by
  simp [rsvpSum]

theorem rsvpContrib_indexOf (fs : List String) (e : Event) (x : String)
    (hx : x ∈ fs) :
    rsvpContrib fs e (fs.indexOf x)
      = 2 * ((if e.main_category.getD "" = x then (1 : ℚ) else 0)
             + (if e.sub_category.getD "" = x then (1 : ℚ) else 0)) := by
  unfold rsvpContrib
  by_cases hm : e.main_category.getD "" = x
  · by_cases hs : e.sub_category.getD "" = x
    · rw [if_pos ⟨hm ▸ hx, by rw [hm]⟩, if_pos ⟨hs ▸ hx, by rw [hs]⟩,
        if_pos hm, if_pos hs]
      norm_num
    · rw [if_pos ⟨hm ▸ hx, by rw [hm]⟩, if_pos hm, if_neg hs,
        if_neg (fun hc => hs ((List.indexOf_inj hc.1 hx).mp hc.2))]
      norm_num
  · by_cases hs : e.sub_category.getD "" = x
    · rw [if_neg (fun hc => hm ((List.indexOf_inj hc.1 hx).mp hc.2)),
        if_pos ⟨hs ▸ hx, by rw [hs]⟩, if_neg hm, if_pos hs]
      norm_num
    · rw [if_neg (fun hc => hm ((List.indexOf_inj hc.1 hx).mp hc.2)),
        if_neg (fun hc => hs ((List.indexOf_inj hc.1 hx).mp hc.2)),
        if_neg hm, if_neg hs]
      norm_num

theorem rsvpSum_indexOf (fs : List String) (r : List Event) (x : String)
    (hx : x ∈ fs) :
    rsvpSum fs r (fs.indexOf x) = 2 * (rsvpLabelCount r x : ℚ) := by
  induction r with
  | nil => simp [rsvpSum, rsvpLabelCount]
  | cons e r ih =>
    have hcast : ((rsvpLabelCount (e :: r) x : Nat) : ℚ)
        = ((if e.main_category.getD "" = x then (1 : ℚ) else 0)
           + (if e.sub_category.getD "" = x then (1 : ℚ) else 0))
          + (rsvpLabelCount r x : ℚ) := by
      simp only [rsvpLabelCount, List.map_cons, List.sum_cons]
      push_cast
      by_cases hm : e.main_category.getD "" = x <;>
        by_cases hs : e.sub_category.getD "" = x <;>
        simp [hm, hs]
    rw [rsvpSum_cons, rsvpContrib_indexOf fs e x hx, ih, hcast]
    ring

theorem eq_of_getD (l₁ l₂ : List ℚ) (hl : l₁.length = l₂.length)
    (h : ∀ j, l₁.getD j 0 = l₂.getD j 0) : l₁ = l₂ := by
  apply List.ext_getElem hl
  intro n h₁ h₂
  have hn := h n
  rwa [List.getD_eq_getElem _ _ h₁, List.getD_eq_getElem _ _ h₂] at hn

/-! ### Claim theorems -/

/-- Claim C4: adding one RSVP event whose main and sub category are both in
the feature space (and name two distinct dimensions), with all else fixed,
raises the user vector by exactly 2 at the main-category dimension and by
exactly 2 at the sub-category dimension, and changes no other dimension. -/
theorem claim_C4_rsvp_weighting (p : UserProfile) (c : ClickCounts)
    (fs : List String) (r₁ r₂ : List Event) (e : Event)
    (hm : e.main_category.getD "" ∈ fs) (hs : e.sub_category.getD "" ∈ fs)
    (hne : e.main_category.getD "" ≠ e.sub_category.getD "") :
    (create_user_vector p c (r₁ ++ e :: r₂) fs).getD
        (fs.indexOf (e.main_category.getD "")) 0
      = (create_user_vector p c (r₁ ++ r₂) fs).getD
          (fs.indexOf (e.main_category.getD "")) 0 + 2
    ∧ (create_user_vector p c (r₁ ++ e :: r₂) fs).getD
        (fs.indexOf (e.sub_category.getD "")) 0
      = (create_user_vector p c (r₁ ++ r₂) fs).getD
          (fs.indexOf (e.sub_category.getD "")) 0 + 2
    ∧ ∀ j, j ≠ fs.indexOf (e.main_category.getD "")
        → j ≠ fs.indexOf (e.sub_category.getD "")
        → (create_user_vector p c (r₁ ++ e :: r₂) fs).getD j 0
            = (create_user_vector p c (r₁ ++ r₂) fs).getD j 0 := by
  have hjm : fs.indexOf (e.main_category.getD "") < fs.length :=
    List.indexOf_lt_length.mpr hm
  have hjs : fs.indexOf (e.sub_category.getD "") < fs.length :=
    List.indexOf_lt_length.mpr hs
  refine ⟨?_, ?_, ?_⟩
  · rw [getD_create_user_vector _ _ _ _ _ hjm,
      getD_create_user_vector _ _ _ _ _ hjm,
      rsvpSum_append, rsvpSum_cons, rsvpSum_append]
    have hc : rsvpContrib fs e (fs.indexOf (e.main_category.getD "")) = 2 := by
      unfold rsvpContrib
      rw [if_pos ⟨hm, rfl⟩,
        if_neg (fun hcon =>
          hne ((List.indexOf_inj hs hm).mp hcon.2).symm)]
      norm_num
    rw [hc]
    ring
  · rw [getD_create_user_vector _ _ _ _ _ hjs,
      getD_create_user_vector _ _ _ _ _ hjs,
      rsvpSum_append, rsvpSum_cons, rsvpSum_append]
    have hc : rsvpContrib fs e (fs.indexOf (e.sub_category.getD "")) = 2 := by
      unfold rsvpContrib
      rw [if_neg (fun hcon => hne ((List.indexOf_inj hm hs).mp hcon.2)),
        if_pos ⟨hs, rfl⟩]
      norm_num
    rw [hc]
    ring
  · intro j hjne₁ hjne₂
    by_cases hj : j < fs.length
    · rw [getD_create_user_vector _ _ _ _ _ hj,
        getD_create_user_vector _ _ _ _ _ hj,
        rsvpSum_append, rsvpSum_cons, rsvpSum_append]
      have hc : rsvpContrib fs e j = 0 := by
        unfold rsvpContrib
        rw [if_neg (fun hcon => hjne₁ hcon.2.symm),
          if_neg (fun hcon => hjne₂ hcon.2.symm)]
        norm_num
      rw [hc]
      ring
    · rw [getD_create_user_vector_ge _ _ _ _ _ (Nat.le_of_not_lt hj),
        getD_create_user_vector_ge _ _ _ _ _ (Nat.le_of_not_lt hj)]

theorem claim_C4_witness :
    (create_user_vector {} {}
        ([] ++ ({ main_category := some "Music",
                  sub_category := some "Sports" } : Event) :: [])
        ["Music", "Sports"]).getD
      (List.indexOf
        (({ main_category := some "Music",
            sub_category := some "Sports" } : Event).main_category.getD "")
        ["Music", "Sports"]) 0
      = (create_user_vector {} {} ([] ++ []) ["Music", "Sports"]).getD
          (List.indexOf
            (({ main_category := some "Music",
                sub_category := some "Sports" } : Event).main_category.getD "")
            ["Music", "Sports"]) 0 + 2 :=
  (claim_C4_rsvp_weighting {} {} ["Music", "Sports"] [] []
    { main_category := some "Music", sub_category := some "Sports" }
    (by decide) (by decide) (by decide)).1

/-- Claim C5: increasing the engagement count recorded for a subcategory
present in the feature space from c to c + n, with all else fixed,
increases the corresponding dimension of the user vector by exactly n. -/
theorem claim_C5_engagement_additivity (p : UserProfile) (base : ClickCounts)
    (r : List Event) (fs : List String) (cs₁ cs₂ : List SubCategoryInfo)
    (s : String) (c n : ℚ) (hs : s ∈ fs) :
    (create_user_vector p
        { base with
          subCategories :=
            some (cs₁ ++ (⟨some s, some (c + n)⟩ : SubCategoryInfo) :: cs₂) }
        r fs).getD (fs.indexOf s) 0
      = (create_user_vector p
          { base with
            subCategories :=
              some (cs₁ ++ (⟨some s, some c⟩ : SubCategoryInfo) :: cs₂) }
          r fs).getD (fs.indexOf s) 0 + n := by
  have hj : fs.indexOf s < fs.length := List.indexOf_lt_length.mpr hs
  rw [getD_create_user_vector _ _ _ _ _ hj,
    getD_create_user_vector _ _ _ _ _ hj]
  show (if interestHit fs (p.interests.getD []) (fs.indexOf s) then 1 else 0)
      + clickSum fs (cs₁ ++ (⟨some s, some (c + n)⟩ : SubCategoryInfo) :: cs₂)
          (fs.indexOf s)
      + rsvpSum fs r (fs.indexOf s)
    = (if interestHit fs (p.interests.getD []) (fs.indexOf s) then 1 else 0)
      + clickSum fs (cs₁ ++ (⟨some s, some c⟩ : SubCategoryInfo) :: cs₂)
          (fs.indexOf s)
      + rsvpSum fs r (fs.indexOf s) + n
  rw [clickSum_append, clickSum_cons, clickSum_append, clickSum_cons]
  have h₁ : clickContrib fs ⟨some s, some (c + n)⟩ (fs.indexOf s) = c + n := by
    simp [clickContrib, hs]
  have h₂ : clickContrib fs ⟨some s, some c⟩ (fs.indexOf s) = c := by
    simp [clickContrib, hs]
  rw [h₁, h₂]
  ring

theorem claim_C5_witness :
    (create_user_vector {}
        { ({} : ClickCounts) with
          subCategories :=
            some ([] ++ (⟨some "Music", some ((3 : ℚ) + 2)⟩ : SubCategoryInfo)
              :: []) }
        [] ["Music", "Sports"]).getD
        (List.indexOf "Music" ["Music", "Sports"]) 0
      = (create_user_vector {}
          { ({} : ClickCounts) with
            subCategories :=
              some ([] ++ (⟨some "Music", some (3 : ℚ)⟩ : SubCategoryInfo)
                :: []) }
          [] ["Music", "Sports"]).getD
          (List.indexOf "Music" ["Music", "Sports"]) 0 + 2 :=
  claim_C5_engagement_additivity {} {} [] ["Music", "Sports"] [] []
    "Music" 3 2 (by decide)

/-- Claim C6: an interest label present in the feature space sets its
dimension to exactly 1 at the interest-encoding stage, and interest lists
with the same members (in particular a list with a label repeated) produce
the same user vector: a set-membership assignment, not a counter. -/
theorem claim_C6_interest_set_semantics (fs : List String)
    (l₁ l₂ : List String) (x : String) (p : UserProfile) (c : ClickCounts)
    (r : List Event) (hx : x ∈ l₁) (hxf : x ∈ fs)
    (hmem : ∀ y, y ∈ l₁ ↔ y ∈ l₂) :
    (encodeInterests fs l₁ (List.replicate fs.length 0)).getD
        (fs.indexOf x) 0 = 1
      ∧ create_user_vector { p with interests := some l₁ } c r fs
          = create_user_vector { p with interests := some l₂ } c r fs := by
  constructor
  · rw [getD_encodeInterests _ _ _ _ (List.length_replicate _ _),
      if_pos ⟨x, hx, hxf, rfl⟩]
  · apply eq_of_getD
    · rw [length_create_user_vector, length_create_user_vector]
    · intro j
      by_cases hj : j < fs.length
      · rw [getD_create_user_vector _ _ _ _ _ hj,
          getD_create_user_vector _ _ _ _ _ hj]
        show (if interestHit fs l₁ j then (1 : ℚ) else 0) + _ + _
          = (if interestHit fs l₂ j then (1 : ℚ) else 0) + _ + _
        have hiff : interestHit fs l₁ j ↔ interestHit fs l₂ j := by
          constructor
          · rintro ⟨y, hy, hyp⟩
            exact ⟨y, (hmem y).mp hy, hyp⟩
          · rintro ⟨y, hy, hyp⟩
            exact ⟨y, (hmem y).mpr hy, hyp⟩
        rw [if_congr hiff rfl rfl]
      · rw [getD_create_user_vector_ge _ _ _ _ _ (Nat.le_of_not_lt hj),
          getD_create_user_vector_ge _ _ _ _ _ (Nat.le_of_not_lt hj)]

theorem claim_C6_witness :
    (encodeInterests ["Music", "Sports"] ["Music", "Music"]
        (List.replicate (["Music", "Sports"] : List String).length 0)).getD
        (List.indexOf "Music" ["Music", "Sports"]) 0 = 1
      ∧ create_user_vector
          { ({} : UserProfile) with interests := some ["Music", "Music"] }
          {} [] ["Music", "Sports"]
        = create_user_vector
            { ({} : UserProfile) with interests := some ["Music"] }
            {} [] ["Music", "Sports"] :=
  claim_C6_interest_set_semantics ["Music", "Sports"] ["Music", "Music"]
    ["Music"] "Music" {} {} [] (by decide) (by decide)
    (by intro y; simp [List.mem_cons])

/-- Claim C7: both encoders always produce vectors of length
dimension-count plus 2, and on inputs with no recognizable labels every
dimension before the trailing two location dimensions is zero (and for the
user vector the trailing dimensions are zero as well). -/
theorem claim_C7_vector_shape (fs : List String) (p : UserProfile)
    (c : ClickCounts) (r : List Event) (e : Event)
    (hints : ∀ x ∈ p.interests.getD [], x ∉ fs)
    (hclicks : ∀ info ∈ c.subCategories.getD [],
      info.category.getD "" ∉ fs)
    (hrsvps : ∀ ev ∈ r,
      ev.main_category.getD "" ∉ fs ∧ ev.sub_category.getD "" ∉ fs)
    (hem : e.main_category.getD "" ∉ fs)
    (hes : e.sub_category.getD "" ∉ fs) :
    (∀ (p' : UserProfile) (c' : ClickCounts) (r' : List Event),
        (create_user_vector p' c' r' fs).length = fs.length + 2)
      ∧ (∀ e' : Event, (create_event_vector e' fs).length = fs.length + 2)
      ∧ (∀ j, j < fs.length → (create_user_vector p c r fs).getD j 0 = 0)
      ∧ (∀ j, fs.length ≤ j → (create_user_vector p c r fs).getD j 0 = 0)
      ∧ (∀ j, j < fs.length → (create_event_vector e fs).getD j 0 = 0) := by
  refine ⟨fun p' c' r' => length_create_user_vector p' c' r' fs,
    fun e' => length_create_event_vector e' fs, ?_, ?_, ?_⟩
  · intro j hj
    rw [getD_create_user_vector _ _ _ _ _ hj]
    have h₁ : ¬ interestHit fs (p.interests.getD []) j := by
      rintro ⟨y, hy, hyf, _⟩
      exact hints y hy hyf
    have h₂ : clickSum fs (c.subCategories.getD []) j = 0 := by
      apply List.sum_eq_zero
      intro q hq
      obtain ⟨info, hinfo, rfl⟩ := List.mem_map.mp hq
      exact if_neg (fun hcon => hclicks info hinfo hcon.1)
    have h₃ : rsvpSum fs r j = 0 := by
      apply List.sum_eq_zero
      intro q hq
      obtain ⟨ev, hev, rfl⟩ := List.mem_map.mp hq
      unfold rsvpContrib
      rw [if_neg (fun hcon => (hrsvps ev hev).1 hcon.1),
        if_neg (fun hcon => (hrsvps ev hev).2 hcon.1)]
      norm_num
    rw [if_neg h₁, h₂, h₃]
    norm_num
  · intro j hj
    exact getD_create_user_vector_ge p c r fs j hj
  · intro j hj
    rw [create_event_vector_no_labels e fs hem hes,
      List.getD_append _ _ _ _ (by simpa using hj), getD_replicate_zero]

theorem claim_C7_witness :
    (create_user_vector {} {} [] ["Music", "Sports"]).length
        = (["Music", "Sports"] : List String).length + 2
      ∧ (create_user_vector {} {} [] ["Music", "Sports"]).getD 0 0 = 0
      ∧ (create_event_vector {} ["Music", "Sports"]).getD 1 0 = 0 := by
  have h := claim_C7_vector_shape ["Music", "Sports"] {} {} [] {}
    (by decide) (by decide) (by decide) (by decide) (by decide)
  exact ⟨h.1 {} {} [], h.2.2.1 0 (by decide), h.2.2.2.2 1 (by decide)⟩

/-- Claim C10: the three signal kinds compose additively on a shared
dimension: a label that is among the interests, carries total engagement
count c₀, and occurs in rn RSVP contributions ends at exactly
1 + c₀ + 2 * rn, because the interest assignment of 1 happens before the
additive engagement and RSVP steps. -/
theorem claim_C10_additive_composition (p : UserProfile) (c : ClickCounts)
    (r : List Event) (fs : List String) (x : String) (c₀ : ℚ) (rn : Nat)
    (hx : x ∈ fs) (hint : x ∈ p.interests.getD [])
    (hc : clickSum fs (c.subCategories.getD []) (fs.indexOf x) = c₀)
    (hr : rsvpLabelCount r x = rn) :
    (create_user_vector p c r fs).getD (fs.indexOf x) 0
      = 1 + c₀ + 2 * (rn : ℚ) := by
  have hj : fs.indexOf x < fs.length := List.indexOf_lt_length.mpr hx
  rw [getD_create_user_vector _ _ _ _ _ hj, hc, rsvpSum_indexOf fs r x hx, hr,
    if_pos ⟨x, hint, hx, rfl⟩]

theorem claim_C10_witness :
    (create_user_vector { interests := some ["Music"] }
        { subCategories := some [⟨some "Music", some 3⟩] }
        [{ main_category := some "Music", sub_category := some "Sports" }]
        ["Music", "Sports"]).getD
        (List.indexOf "Music" ["Music", "Sports"]) 0
      = 1 + 3 + 2 * ((1 : Nat) : ℚ) :=
  claim_C10_additive_composition
    { interests := some ["Music"] }
    { subCategories := some [⟨some "Music", some 3⟩] }
    [{ main_category := some "Music", sub_category := some "Sports" }]
    ["Music", "Sports"] "Music" 3 1 (by decide) (by decide)
    (by simp [clickSum, clickContrib]) (by decide)

/-- Claim C8: the label-to-index assignment of the feature space is a
bijection from its labels onto the index range: the labels are distinct,
every label maps below the dimension count, distinct labels map to
distinct indices, every index is hit, and re-deriving the space from the
two catalog lists yields identical indices. -/
theorem claim_C8_feature_space_bijection :
    feature_space.Nodup
      ∧ (∀ x ∈ feature_space,
          List.indexOf x feature_space < feature_space.length)
      ∧ (∀ x ∈ feature_space, ∀ y ∈ feature_space,
          List.indexOf x feature_space = List.indexOf y feature_space
            → x = y)
      ∧ (∀ i, i < feature_space.length
          → ∃ x ∈ feature_space, List.indexOf x feature_space = i)
      ∧ (∀ x : String,
          List.indexOf x (categories ++ subcategories)
            = List.indexOf x feature_space) := by
  have hnd : feature_space.Nodup := by decide
  refine ⟨hnd, ?_, ?_, ?_, fun x => rfl⟩
  · intro x hx
    exact List.indexOf_lt_length.mpr hx
  · intro x hx y hy h
    exact (List.indexOf_inj hx hy).mp h
  · intro i hi
    exact ⟨feature_space.get ⟨i, hi⟩, List.get_mem _ _ _,
      List.get_indexOf hnd ⟨i, hi⟩⟩

theorem claim_C8_witness :
    List.indexOf "Music" feature_space < feature_space.length
      ∧ List.indexOf "Music" (categories ++ subcategories)
          = List.indexOf "Music" feature_space :=
  ⟨claim_C8_feature_space_bijection.2.1 "Music" (by decide),
    claim_C8_feature_space_bijection.2.2.2.2 "Music"⟩

theorem find?_append_cons {α : Type} (p : α → Bool) (l₁ l₂ : List α) (x : α)
    (h₁ : ∀ y ∈ l₁, ¬ p y) (hx : p x) :
    List.find? p (l₁ ++ x :: l₂) = some x := by
  rw [List.find?_append, List.find?_eq_none.mpr h₁, Option.none_or,
    List.find?_cons_of_pos _ hx]

/-- Claim C9: the keyword fallback applies its rule list in order with
first-match-wins semantics — if every group before some entry has no
keyword occurring in the combined text and that entry has one, the result
is the category of that entry with its mapped subcategory — and when no group
matches at all the result is exactly Others with Sub-Others. -/
theorem claim_C9_first_match_fallback (event_data : EventData) :
    (∀ (pre : List (String × List String)) (cat : String)
        (kws : List String) (post : List (String × List String)),
        category_keywords = pre ++ (cat, kws) :: post
        → (∀ p ∈ pre, ∀ kw ∈ p.2,
            ¬ strContains (combined_text event_data) kw)
        → (∃ kw ∈ kws, strContains (combined_text event_data) kw)
        → (infer_category_from_title event_data).main_category = cat
          ∧ (infer_category_from_title event_data).sub_category
              = lookupSubcategory cat)
      ∧ ((∀ p ∈ category_keywords, ∀ kw ∈ p.2,
          ¬ strContains (combined_text event_data) kw)
        → infer_category_from_title event_data
            = { main_category := "Others", sub_category := "Sub-Others",
                description := descriptionOrDefault event_data }) := by
  constructor
  · intro pre cat kws post hdecomp hpre hmatch
    have hfind : List.find?
        (fun ck => ck.2.any
          (fun keyword => strContains (combined_text event_data) keyword))
        category_keywords = some (cat, kws) := by
      rw [hdecomp]
      apply find?_append_cons
      · intro y hy hc
        obtain ⟨kw, hkw, hkc⟩ := List.any_eq_true.mp hc
        exact hpre y hy kw hkw hkc
      · obtain ⟨kw, hkw, hkc⟩ := hmatch
        exact List.any_eq_true.mpr ⟨kw, hkw, hkc⟩
    simp only [infer_category_from_title]
    rw [hfind]
    exact ⟨rfl, rfl⟩
  · intro hnone
    have hfind : List.find?
        (fun ck => ck.2.any
          (fun keyword => strContains (combined_text event_data) keyword))
        category_keywords = none := by
      apply List.find?_eq_none.mpr
      intro y hy hc
      obtain ⟨kw, hkw, hkc⟩ := List.any_eq_true.mp hc
      exact hnone y hy kw hkw hkc
    simp only [infer_category_from_title]
    rw [hfind]

theorem claim_C9_witness :
    (infer_category_from_title
        { title := "Tech Startup Mixer", venue := "x" }).main_category
        = "Technology"
      ∧ (infer_category_from_title
          { title := "Tech Startup Mixer", venue := "x" }).sub_category
          = lookupSubcategory "Technology" :=
  (claim_C9_first_match_fallback
      { title := "Tech Startup Mixer", venue := "x" }).1
    [] "Technology"
    ["software", "web", "development", "machine learning", "cybersecurity",
     "tech", "startup"]
    category_keywords.tail rfl (by decide) (by decide)

/-- Claim C1 is refuted by the code: when no user profile matches, the
request body raises HTTPException(404) inside the try block, but the
blanket except-handler catches it — HTTPException subclasses Exception —
and re-raises status 500 with the stringified original exception.  The
caller therefore receives the generic 500, never a 404. -/
theorem claim_C1_not_found_surfaces_as_500 (db : DB) (user_id : String)
    (top_n : Nat) (dist : List ℚ → List ℚ → ℚ)
    (h : db.userprofiles.find? (fun p => p.id == user_id) = none) :
    recommend_events db user_id top_n dist
        = .httpError 500 "404: User not found"
      ∧ ∀ detail, recommend_events db user_id top_n dist
          ≠ .httpError 404 detail := by
  have hbody : recommend_events_try db user_id top_n dist
      = .error (.http 404 "User not found") := by
    unfold recommend_events_try
    rw [h]
  have hrun : recommend_events db user_id top_n dist
      = .httpError 500 (strOfExc (.http 404 "User not found")) := by
    unfold recommend_events
    rw [hbody]
  have hstr : strOfExc (.http 404 "User not found")
      = "404: User not found" := by decide
  refine ⟨hrun.trans (by rw [hstr]), ?_⟩
  intro detail hc
  rw [hrun] at hc
  simp at hc

theorem claim_C1_witness :
    recommend_events {} "missing-user" 10 (fun _ _ => 0)
        = .httpError 500 "404: User not found"
      ∧ recommend_events {} "missing-user" 10 (fun _ _ => 0)
          ≠ .httpError 404 "User not found" := by
  have h := claim_C1_not_found_surfaces_as_500 {} "missing-user" 10
    (fun _ _ => 0) rfl
  exact ⟨h.1, h.2 "User not found"⟩

/-- A concrete Ticketmaster feed event whose venue carries non-zero
coordinates. -/
def tmEventJazz : TMEvent :=
  { name := some "Jazz Night"
    venues := [{ name := some "The Lyric"
                 location := some { latitude := some (37.22 : ℚ)
                                    longitude := some (-80.41 : ℚ) } }] }

/-- A categorization result for that event. -/
def enhancedJazz : CategorizeResult :=
  { main_category := "Music"
    sub_category := "Live Performances & Concerts"
    description := "A night of live jazz at The Lyric." }

/-- Claim C2 is refuted by the code: the Ticketmaster pipeline stores the
geo values under the lowercase dict keys latitude and longitude, while
`create_event_vector` reads the capitalised keys Latitude and Longitude
with default 0, so for a stored event with non-zero coordinates the
trailing two dimensions of the event vector are 0 and 0, not the stored
values. -/
theorem claim_C2_stored_geo_dropped :
    (process_ticketmaster_event tmEventJazz enhancedJazz).latitude
        = some (37.22 : ℚ)
      ∧ (process_ticketmaster_event tmEventJazz enhancedJazz).longitude
          = some (-80.41 : ℚ)
      ∧ (create_event_vector (process_ticketmaster_event tmEventJazz
          enhancedJazz) feature_space).getD feature_space.length 0 = 0
      ∧ (create_event_vector (process_ticketmaster_event tmEventJazz
          enhancedJazz) feature_space).getD (feature_space.length + 1) 0 = 0
      ∧ (0 : ℚ) ≠ (37.22 : ℚ) ∧ (0 : ℚ) ≠ (-80.41 : ℚ) := by
  refine ⟨rfl, rfl, ?_, ?_, by norm_num, by norm_num⟩
  · exact (create_event_vector_trailing _ _).1.trans rfl
  · exact (create_event_vector_trailing _ _).2.trans rfl

/-- Claim C3, settled against the spec-modelled ANN contract (the index
implementation is the external Annoy library, absent from src/): query
results are pairwise sorted by non-decreasing distance, number at most k,
are a permutation of all indexed items when k is at least the index size,
and are empty on an empty index; consequently a request by an existing
user over zero events returns an empty recommendation list, not an
error. -/
theorem claim_C3_query_contract (items : List (List ℚ)) (q : List ℚ)
    (k : Nat) (dist : List ℚ → List ℚ → ℚ) (db : DB) (user_id : String)
    (top_n : Nat) (p : UserProfile)
    (hp : db.userprofiles.find? (fun u => u.id == user_id) = some p)
    (he : db.events = []) :
    List.Pairwise (fun a b : Nat × ℚ => a.2 ≤ b.2) (annQuery items q k dist)
      ∧ (annQuery items q k dist).length ≤ k
      ∧ (items.length ≤ k
          → (annQuery items q k dist).Perm
              (items.enum.map (fun pr => (pr.1, dist q pr.2))))
      ∧ annQuery [] q k dist = []
      ∧ recommend_events db user_id top_n dist = .ok [] := by
  have htrans : ∀ a b c : Nat × ℚ, decide (a.2 ≤ b.2) = true
      → decide (b.2 ≤ c.2) = true → decide (a.2 ≤ c.2) = true := by
    intro a b c hab hbc
    exact decide_eq_true
      (le_trans (of_decide_eq_true hab) (of_decide_eq_true hbc))
  have htotal : ∀ a b : Nat × ℚ,
      (decide (a.2 ≤ b.2) || decide (b.2 ≤ a.2)) = true := by
    intro a b
    simpa using le_total a.2 b.2
  refine ⟨?_, ?_, ?_, ?_, ?_⟩
  · have hall := List.sorted_mergeSort htrans htotal
      (items.enum.map (fun pr => (pr.1, dist q pr.2)))
    have htake := List.Pairwise.sublist (List.take_sublist k _) hall
    exact htake.imp (fun hab => of_decide_eq_true hab)
  · show (List.take k _).length ≤ k
    rw [List.length_take]
    exact min_le_left _ _
  · intro hk
    have hlen : ((items.enum.map (fun pr => (pr.1, dist q pr.2))).mergeSort
        (fun a b => decide (a.2 ≤ b.2))).length ≤ k := by
      rw [List.length_mergeSort, List.length_map, List.enum_length]
      exact hk
    show (((items.enum.map (fun pr => (pr.1, dist q pr.2))).mergeSort
        (fun a b => decide (a.2 ≤ b.2))).take k).Perm
      (items.enum.map (fun pr => (pr.1, dist q pr.2)))
    rw [List.take_of_length_le hlen]
    exact List.mergeSort_perm _ _
  · simp [annQuery, List.mergeSort_nil]
  · simp [recommend_events, recommend_events_try, hp, he, annQuery,
      List.mergeSort_nil]

theorem claim_C3_witness :
    annQuery [] [0, 1] 2 (fun _ _ => 0) = []
      ∧ recommend_events { userprofiles := [{ id := "u1" }] } "u1" 10
          (fun _ _ => 0) = .ok [] := by
  have h := claim_C3_query_contract [] [0, 1] 2 (fun _ _ => 0)
    { userprofiles := [{ id := "u1" }] } "u1" 10 { id := "u1" } rfl rfl
  exact ⟨h.2.2.2.1, h.2.2.2.2⟩

end HokieEvents
